import Mathlib

/-!
Verification development for the socioeconomic-index pipeline
(src/utils.py and src/train.py).

The pipeline is embedded shallowly over exact rationals:
- a pandas DataFrame becomes a list of named rational columns;
- sklearn MinMaxScaler becomes min-max rescaling with the zero-range
  denominator replaced by 1 (the handle_zeros_in_scale behaviour);
- pandas Pearson correlation becomes the usual product-moment formula,
  with the float square root modelled by a rational square root that is
  exact on perfect squares; a NaN float result is modelled as none;
- pd.cut with bins [0, 0.33, 0.66, 1] becomes a three-interval
  classifier that is undefined (none) outside the half-open bins;
- sklearn train_test_split becomes a seeded deterministic shuffle of
  the row indices followed by a take/drop partition.

Float literals of the source (0.33, 0.66, 0.3) are read as exact
rationals, and float NaN/Inf results are modelled as Option.none.
-/

/-- Integer square root by exhaustive search: the largest k with k*k le n.
Used to build the rational square root of the correlation denominator;
it is exact on perfect squares, which is the only case the theorems use. -/
def isqrt (n : ℕ) : ℕ :=
  ((((List.range (n + 1)).filter fun k => k * k ≤ n).getLast?).getD 0)

/-- Rational square root, exact on squares of rationals: for q = a / b in
lowest terms it returns isqrt (a * b) / b, an approximation of the real
square root that is exact whenever the real square root is rational. -/
def sqrtQ (q : ℚ) : ℚ :=
  ((isqrt (q.num.toNat * q.den) : ℚ)) / ((q.den : ℚ))

/-- Arithmetic mean of a list of rationals (0 on the empty list, whose
mean a float library would report as NaN; the callers below only take
means of nonempty columns). -/
def meanQ (xs : List ℚ) : ℚ := xs.sum / (xs.length : ℚ)

/-- Sum of products of deviations from the mean: the numerator of the
Pearson covariance of the two columns (the 1/(n-1) factors cancel in the
correlation, so they are left out on both numerator and denominator). -/
def sxy (xs ys : List ℚ) : ℚ :=
  (((xs.zip ys).map fun p => (p.1 - meanQ xs) * (p.2 - meanQ ys)).sum)

/-- Absolute Pearson correlation of two columns, as computed by
pandas DataFrame.corr followed by Series.abs: NaN (modelled as none)
when either column has zero variance, otherwise the absolute value of
the product-moment quotient. -/
def pearsonAbs (xs ys : List ℚ) : Option ℚ :=
  if sxy xs xs = 0 ∨ sxy ys ys = 0 then none
  else some (|sxy xs ys / sqrtQ (sxy xs xs * sxy ys ys)|)

/-- A pandas DataFrame: an ordered list of named columns of rationals.
All columns are expected to have the same length (the row count). -/
structure DataFrame where
  cols : List (String × List ℚ)
  deriving DecidableEq, Repr

/-- Column lookup, df[name]: the first column with the given name, or the
empty column when the name is absent. -/
def lookupCol : List (String × List ℚ) → String → List ℚ
  | [], _ => []
  | (n, xs) :: rest, name => if n = name then xs else lookupCol rest name

/-- Column of a DataFrame by name. -/
def DataFrame.col (df : DataFrame) (name : String) : List ℚ :=
  lookupCol df.cols name

/-- Whether a DataFrame has a column of the given name. -/
def hasColB : List (String × List ℚ) → String → Bool
  | [], _ => false
  | (n, _) :: rest, name => if n = name then true else hasColB rest name

/-- Boolean column-presence test. -/
def DataFrame.hasCol (df : DataFrame) (name : String) : Bool :=
  hasColB df.cols name

/-- Number of rows: the length of the first column (0 if no columns). -/
def DataFrame.nrows (df : DataFrame) : ℕ :=
  ((df.cols.head?.map fun p => p.2.length).getD 0)

/-- Minimum of a column (series .min()); 0 for the empty column. -/
def minOf : List ℚ → ℚ
  | [] => 0
  | [x] => x
  | x :: y :: xs => min x (minOf (y :: xs))

/-- Maximum of a column (series .max()); 0 for the empty column. -/
def maxOf : List ℚ → ℚ
  | [] => 0
  | [x] => x
  | x :: y :: xs => max x (maxOf (y :: xs))

/-- sklearn MinMaxScaler fit_transform on one column: rescale by
(x - min) / (max - min), with a zero range replaced by 1 in the
denominator, exactly as handle_zeros_in_scale does (so a constant
column is mapped to all zeros, not to NaN and not to an error). -/
def minMaxScaler (xs : List ℚ) : List ℚ :=
  let mn := minOf xs
  let d := maxOf xs - mn
  xs.map fun x => (x - mn) / (if d = 0 then 1 else d)

/-- The normalization step df_norm[variaveis] = scaler.fit_transform(
df_norm[variaveis]): every listed column is min-max rescaled in the
copied frame, every other column passes through unchanged; the column
order (hence row order) is untouched. -/
def normalizarColunas (df : DataFrame) (variaveis : List String) : DataFrame :=
  ⟨df.cols.map fun p =>
    (p.1, if p.1 ∈ variaveis then minMaxScaler p.2 else p.2)⟩

/-- The correlation series df_norm[variaveis].corr()[ref].abs(): one
absolute correlation (possibly NaN, modelled as none) per listed
variable, keyed by the variable name. -/
def corrsFor (dfn : DataFrame) (variaveis : List String) (ref : String) :
    List (String × Option ℚ) :=
  variaveis.map fun v => (v, pearsonAbs (dfn.col v) (dfn.col ref))

/-- corrs.sum(): the pandas sum of the correlation series, which skips
NaN entries (skipna defaults to true), so a none contributes 0. -/
def somaCorrs (corrs : List (String × Option ℚ)) : ℚ :=
  ((corrs.map fun p => p.2.getD 0).sum)

/-- pesos = corrs / corrs.sum(): float division of each entry by the
sum.  A NaN entry stays NaN; when the sum is zero every entry of the
series is NaN or 0 and the float division 0/0 or NaN/0 yields NaN,
modelled as none. -/
def pesosFrom (corrs : List (String × Option ℚ)) : List (String × Option ℚ) :=
  let s := somaCorrs corrs
  corrs.map fun p => (p.1, p.2.bind fun c => if s = 0 then none else some (c / s))

/-- calcular_pesos_correlacao of src/utils.py: copy the frame, min-max
normalize the listed variables, take the absolute correlations with the
reference variable, and divide by their sum.  A listed column missing
from the frame raises a KeyError in df_norm[variaveis]; a reference
that is not among the listed variables raises a KeyError in the
corr()[variavel_referencia] lookup.  No other failure path exists: a
degenerate input produces NaN weights (none entries), not an error. -/
def calcular_pesos_correlacao (database : DataFrame) (variaveis : List String)
    (variavel_referencia : String) :
    Except String (DataFrame × List (String × Option ℚ)) :=
  if variaveis.all database.hasCol then
    let df_norm := normalizarColunas database variaveis
    if variavel_referencia ∈ variaveis then
      Except.ok (df_norm, pesosFrom (corrsFor df_norm variaveis variavel_referencia))
    else Except.error ("KeyError: variavel_referencia not in corr() columns")
  else Except.error ("KeyError: column not in DataFrame")

/-- pd.cut(v, bins=[0, 0.33, 0.66, 1], labels=[baixo, medio, alto]):
right-closed intervals that do NOT include the lowest edge (pd.cut
default include_lowest=False), so exactly 0 falls in no bin and gets a
null label, as does anything outside (0, 1]. -/
def cutClassify (v : ℚ) : Option String :=
  if 0 < v ∧ v ≤ 33 / 100 then some ("baixo")
  else if 33 / 100 < v ∧ v ≤ 66 / 100 then some ("médio")
  else if 66 / 100 < v ∧ v ≤ 1 then some ("alto")
  else none

/-- Lookup of a weight by variable name in the weight series; none both
when the name is absent (pandas alignment introduces NaN) and when the
stored weight itself is NaN. -/
def lookupPeso : List (String × Option ℚ) → String → Option ℚ
  | [], _ => none
  | (n, w) :: rest, name => if n = name then w else lookupPeso rest name

/-- Row i of (df_norm[variaveis] * pesos).sum(axis=1): the weighted sum
over the listed variables; the pandas row sum has skipna=true, so a
NaN product (NaN weight) contributes 0. -/
def indiceBruto (dfn : DataFrame) (variaveis : List String)
    (pesos : List (String × Option ℚ)) (i : ℕ) : ℚ :=
  ((variaveis.map fun v =>
    match lookupPeso pesos v with
    | some p => ((dfn.col v).getD i 0) * p
    | none => 0).sum)

/-- The state of the frame returned by calcular_classificacao_indice.
The Python function mutates the df_norm object it was handed (column
assignments and dropna(inplace=True)) and returns that same object, so
this structure is also the state of the caller's frame after the call:
the original columns with the unclassifiable rows dropped, plus the two
added columns indice_socioeconomico and classificacao. -/
structure ClassifResult where
  base : DataFrame
  indice : List ℚ
  classificacao : List String
  deriving DecidableEq, Repr

/-- calcular_classificacao_indice of src/utils.py: weighted index per
row, min-max rescale of the index by the direct (x - min)/(max - min)
formula (a constant index column yields 0/0 = NaN for every row), pd.cut
classification, then dropna on the index and label columns, which drops
every row whose rescaled index is exactly 0 (below the first bin) or
whose index is NaN. -/
def calcular_classificacao_indice (df_norm : DataFrame) (variaveis : List String)
    (pesos : List (String × Option ℚ)) : ClassifResult :=
  let n := df_norm.nrows
  let raw := (List.range n).map (indiceBruto df_norm variaveis pesos)
  let mn := minOf raw
  let mx := maxOf raw
  let indice : List (Option ℚ) :=
    raw.map fun x => if mx - mn = 0 then none else some ((x - mn) / (mx - mn))
  let classe : List (Option String) := indice.map fun o => o.bind cutClassify
  let keep := (List.range n).filter fun i =>
    ((indice.getD i none).isSome && (classe.getD i none).isSome)
  { base := ⟨df_norm.cols.map fun p => (p.1, keep.map fun i => p.2.getD i 0)⟩
    indice := keep.map fun i => ((indice.getD i none).getD 0)
    classificacao := keep.map fun i => ((classe.getD i none).getD ("")) }

/-- One step of a linear congruential generator; stands in for the
Mersenne Twister of numpy RandomState, which is only consumed through
the deterministic seed-to-permutation map the split uses. -/
def lcgNext (s : ℕ) : ℕ := (s * 1103515245 + 12345) % 2 ^ 31

/-- Seeded Fisher-Yates shuffle (the shape of numpy permutation): pick
the position given by the generator state, move that element to the
front, recurse on the rest with the next state.  Structural fuel equals
the list length. -/
def shuffleAux : ℕ → ℕ → List ℕ → List ℕ
  | _, _, [] => []
  | 0, _, xs => xs
  | fuel + 1, st, x :: l =>
    let i := st % (x :: l).length
    ((x :: l).getD i 0) :: shuffleAux fuel (lcgNext st) ((x :: l).eraseIdx i)

/-- The permutation of row indices determined by the seed, modelling
numpy RandomState(seed).permutation(n) inside train_test_split. -/
def shuffleList (seed : ℕ) (xs : List ℕ) : List ℕ :=
  shuffleAux xs.length (lcgNext seed) xs

/-- n_test of sklearn for a float test_size: ceil(test_size * n). -/
def nTestFrom (test_size : ℚ) (n : ℕ) : ℕ :=
  ((⌈test_size * (n : ℚ)⌉).toNat)

/-- train_test_split index computation: validate the fraction and the
resulting sizes exactly as sklearn does (a float test_size outside
(0, 1) and an empty train or test side raise ValueError, modelled as
none), then split the seeded permutation: the first n_test shuffled
indices are the test rows, the rest are the train rows. -/
def splitIndices (seed n : ℕ) (test_size : ℚ) : Option (List ℕ × List ℕ) :=
  let nt := nTestFrom test_size n
  if test_size ≤ 0 ∨ 1 ≤ test_size ∨ nt = 0 ∨ n - nt = 0 then none
  else
    let perm := shuffleList seed (List.range n)
    some (perm.drop nt, perm.take nt)

/-- Feature row i of df_norm[variaveis_exp]: the listed values of row i. -/
def rowOf (dfn : DataFrame) (variaveis_exp : List String) (i : ℕ) : List ℚ :=
  variaveis_exp.map fun v => ((dfn.col v).getD i 0)

/-- Target value of row i of df_norm[variavel_alvo]. -/
def targOf (dfn : DataFrame) (variavel_alvo : String) (i : ℕ) : ℚ :=
  ((dfn.col variavel_alvo).getD i 0)

/-- preparar_dados_para_modelo of src/train.py: copy the frame, min-max
normalize the explanatory variables together with the target, then
train_test_split(X, y, test_size, random_state): both X and y are
partitioned by the same shuffled index list, so each feature row stays
paired with its target value.  In the source test_size defaults to 0.3
and random_state to 42; both are explicit parameters here. -/
def preparar_dados_para_modelo (database : DataFrame) (variavel_alvo : String)
    (variaveis_exp : List String) (test_size : ℚ) (random_state : ℕ) :
    Except String
      (List (List ℚ) × List (List ℚ) × List ℚ × List ℚ × DataFrame) :=
  if (variaveis_exp ++ [variavel_alvo]).all database.hasCol then
    let df_norm := normalizarColunas database (variaveis_exp ++ [variavel_alvo])
    match splitIndices random_state df_norm.nrows test_size with
    | none => Except.error ("ValueError: invalid train-test split")
    | some (tr, te) =>
      Except.ok (tr.map (rowOf df_norm variaveis_exp),
        te.map (rowOf df_norm variaveis_exp),
        tr.map (targOf df_norm variavel_alvo),
        te.map (targOf df_norm variavel_alvo),
        df_norm)
  else Except.error ("KeyError: column not in DataFrame")

/-- State of the caller's frame after calcular_pesos_correlacao: the
first statement of the function is df_norm = database.copy(), and every
later write goes to the copy, so the argument is returned unchanged. -/
def calcular_pesos_correlacao_inputAfter (database : DataFrame)
    (_variaveis : List String) (_variavel_referencia : String) : DataFrame :=
  database

/-- State of the caller's frame after preparar_dados_para_modelo: the
function also starts with df_norm = database.copy(), so the argument is
returned unchanged. -/
def preparar_dados_para_modelo_inputAfter (database : DataFrame)
    (_variavel_alvo : String) (_variaveis_exp : List String)
    (_test_size : ℚ) (_random_state : ℕ) : DataFrame :=
  database

/-- Filtering an initial segment of naturals by a square bound keeps
exactly the naturals up to the root. -/
theorem filter_range_sq_le (m N : ℕ) (hmN : m < N) :
    (List.range N).filter (fun k => k * k ≤ m * m) = List.range (m + 1) := by
  induction N with
  | zero => omega
  | succ n ih =>
    rw [List.range_succ, List.filter_append]
    rcases Nat.lt_succ_iff_lt_or_eq.mp hmN with h | h
    · have hn : ¬ (n * n ≤ m * m) := by
        have := Nat.mul_self_lt_mul_self h
        omega
      rw [ih h]
      simp [hn]
    · subst h
      have h1 : (List.range m).filter (fun k => k * k ≤ m * m) = List.range m := by
        rw [List.filter_eq_self]
        intro a ha
        have ham : a < m := List.mem_range.mp ha
        simpa using Nat.mul_le_mul ham.le ham.le
      have h2 : [m].filter (fun k => k * k ≤ m * m) = [m] := by simp
      rw [h1, h2, ← List.range_succ]

/-- The search-based integer square root is exact on perfect squares. -/
theorem isqrt_sq (m : ℕ) : isqrt (m * m) = m := by
  unfold isqrt
  rw [filter_range_sq_le m (m * m + 1) (by nlinarith)]
  rw [List.range_succ, List.getLast?_concat]
  rfl

/-- The rational square root is exact on squares of nonnegative
rationals. -/
theorem sqrtQ_sq (q : ℚ) (h : 0 ≤ q) : sqrtQ (q * q) = q := by
  obtain ⟨a, ha⟩ : ∃ a : ℕ, q.num = (a : ℤ) :=
    ⟨q.num.toNat, (Int.toNat_of_nonneg (Rat.num_nonneg.mpr h)).symm⟩
  have hnum : (q * q).num = ((a * a : ℕ) : ℤ) := by
    rw [Rat.mul_self_num, ha]; push_cast; ring
  have hden : (q * q).den = q.den * q.den := Rat.mul_self_den q
  have harg : (q * q).num.toNat * (q * q).den = (a * q.den) * (a * q.den) := by
    rw [hnum, hden, Int.toNat_natCast]; ring
  have hdq : (q.den : ℚ) ≠ 0 := Nat.cast_ne_zero.mpr q.den_nz
  rw [sqrtQ, harg, isqrt_sq, hden]
  push_cast
  rw [show ((a : ℚ) * q.den) / (q.den * q.den) = (a / q.den) * (q.den / q.den) by ring]
  rw [div_self hdq, mul_one]
  rw [show ((a : ℚ)) = ((q.num : ℤ) : ℚ) by rw [ha]; push_cast; ring]
  exact Rat.num_div_den q

/-- The self sum-of-products is the sum of the squared deviations. -/
theorem sxy_self_eq (xs : List ℚ) :
    sxy xs xs = ((xs.map fun x => (x - meanQ xs) * (x - meanQ xs)).sum) := by
  unfold sxy
  have hzip : xs.zip xs = xs.map fun a => (a, a) := by
    simpa using List.zip_map' id id xs
  rw [hzip, List.map_map]
  rfl

/-- The variance numerator is nonnegative. -/
theorem sxy_self_nonneg (xs : List ℚ) : 0 ≤ sxy xs xs := by
  rw [sxy_self_eq]
  apply List.sum_nonneg
  intro x hx
  obtain ⟨a, _, rfl⟩ := List.mem_map.mp hx
  exact mul_self_nonneg _

/-- A defined absolute correlation is nonnegative. -/
theorem pearsonAbs_nonneg {xs ys : List ℚ} {c : ℚ}
    (h : pearsonAbs xs ys = some c) : 0 ≤ c := by
  unfold pearsonAbs at h
  split at h
  · exact absurd h (by simp)
  · obtain rfl := (Option.some.injEq _ _).mp h
    exact abs_nonneg _

/-- Absolute self correlation of a column with nonzero variance is
exactly 1 (the float sqrt of the squared variance term is exact). -/
theorem pearsonAbs_self {xs : List ℚ} (h : sxy xs xs ≠ 0) :
    pearsonAbs xs xs = some 1 := by
  unfold pearsonAbs
  rw [if_neg (by simpa using h)]
  rw [sqrtQ_sq _ (sxy_self_nonneg xs), div_self h]
  simp

/-- Zero variance on the left column makes the correlation NaN. -/
theorem pearsonAbs_none_left {xs ys : List ℚ} (h : sxy xs xs = 0) :
    pearsonAbs xs ys = none := by
  unfold pearsonAbs
  exact if_pos (Or.inl h)

/-- Zero variance on the right column makes the correlation NaN. -/
theorem pearsonAbs_none_right {xs ys : List ℚ} (h : sxy ys ys = 0) :
    pearsonAbs xs ys = none := by
  unfold pearsonAbs
  exact if_pos (Or.inr h)

/-- Column view of the normalization step: a listed column is min-max
rescaled, any other column is returned as it was. -/
theorem lookupCol_map_norm (cs : List (String × List ℚ)) (variaveis : List String)
    (name : String) :
    lookupCol (cs.map fun p => (p.1, if p.1 ∈ variaveis then minMaxScaler p.2 else p.2))
        name =
      if name ∈ variaveis then minMaxScaler (lookupCol cs name)
      else lookupCol cs name := by
  induction cs with
  | nil =>
    simp only [List.map_nil, lookupCol]
    by_cases h : name ∈ variaveis <;> simp [h, minMaxScaler]
  | cons p rest ih =>
    simp only [List.map_cons, lookupCol]
    by_cases hp : p.1 = name
    · subst hp
      simp
    · simp [hp, ih]

/-- Column view of normalizarColunas. -/
theorem normalizarColunas_col (df : DataFrame) (variaveis : List String)
    (name : String) :
    (normalizarColunas df variaveis).col name =
      if name ∈ variaveis then minMaxScaler (df.col name) else df.col name := by
  unfold normalizarColunas DataFrame.col
  exact lookupCol_map_norm df.cols variaveis name

/-- The column minimum is a lower bound. -/
theorem minOf_le {xs : List ℚ} : ∀ x ∈ xs, minOf xs ≤ x := by
  induction xs with
  | nil => simp
  | cons a l ih =>
    cases l with
    | nil =>
      intro x hx
      rcases List.mem_cons.mp hx with rfl | hx2
      · exact le_refl _
      · simp at hx2
    | cons b m =>
      intro x hx
      rcases List.mem_cons.mp hx with rfl | hx2
      · exact min_le_left _ _
      · exact le_trans (min_le_right _ _) (ih x hx2)

/-- The column minimum is attained on a nonempty column. -/
theorem minOf_mem {xs : List ℚ} (h : xs ≠ []) : minOf xs ∈ xs := by
  induction xs with
  | nil => exact absurd rfl h
  | cons a l ih =>
    cases l with
    | nil => simp [minOf]
    | cons b m =>
      rcases min_choice a (minOf (b :: m)) with hc | hc
    
      · rw [show minOf (a :: b :: m) = min a (minOf (b :: m)) from rfl, hc]
        exact List.mem_cons_self _ _
      · rw [show minOf (a :: b :: m) = min a (minOf (b :: m)) from rfl, hc]
        exact List.mem_cons_of_mem _ (ih (by simp))

/-- The column maximum is an upper bound. -/
theorem le_maxOf {xs : List ℚ} : ∀ x ∈ xs, x ≤ maxOf xs := by
  induction xs with
  | nil => simp
  | cons a l ih =>
    cases l with
    | nil =>
      intro x hx
      rcases List.mem_cons.mp hx with rfl | hx2
      · exact le_refl _
      · simp at hx2
    | cons b m =>
      intro x hx
      rcases List.mem_cons.mp hx with rfl | hx2
      · exact le_max_left _ _
      · exact le_trans (ih x hx2) (le_max_right _ _)

/-- The column maximum is attained on a nonempty column. -/
theorem maxOf_mem {xs : List ℚ} (h : xs ≠ []) : maxOf xs ∈ xs := by
  induction xs with
  | nil => exact absurd rfl h
  | cons a l ih =>
    cases l with
    | nil => simp [maxOf]
    | cons b m =>
      rcases max_choice a (maxOf (b :: m)) with hc | hc
      · rw [show maxOf (a :: b :: m) = max a (maxOf (b :: m)) from rfl, hc]
        exact List.mem_cons_self _ _
      · rw [show maxOf (a :: b :: m) = max a (maxOf (b :: m)) from rfl, hc]
        exact List.mem_cons_of_mem _ (ih (by simp))

/-- Dividing a list elementwise distributes over the sum. -/
theorem sum_map_div (l : List ℚ) (s : ℚ) :
    ((l.map fun x => x / s).sum) = l.sum / s := by
  induction l with
  | nil => simp
  | cons a t ih => simp [ih, add_div]

/-- Every entry of the correlation series reads as a nonnegative value
under the NaN-skipping convention. -/
theorem corrsFor_getD_nonneg (dfn : DataFrame) (variaveis : List String)
    (ref : String) :
    ∀ p ∈ corrsFor dfn variaveis ref, 0 ≤ p.2.getD 0 := by
  intro p hp
  obtain ⟨v, _, rfl⟩ := List.mem_map.mp hp
  cases hc : pearsonAbs (dfn.col v) (dfn.col ref) with
  | none => simp
  | some c => simpa using pearsonAbs_nonneg hc

/-- The NaN-skipping sum of the correlation series is positive as soon
as one entry is defined and nonzero. -/
theorem somaCorrs_pos {dfn : DataFrame} {variaveis : List String} {ref : String}
    {p : String × Option ℚ} (hp : p ∈ corrsFor dfn variaveis ref)
    (hne : p.2.getD 0 ≠ 0) :
    0 < somaCorrs (corrsFor dfn variaveis ref) := by
  have hmem : p.2.getD 0 ∈ (corrsFor dfn variaveis ref).map fun q => q.2.getD 0 :=
    List.mem_map_of_mem _ hp
  have hnn : ∀ x ∈ (corrsFor dfn variaveis ref).map fun q => q.2.getD 0, 0 ≤ x := by
    intro x hx
    obtain ⟨q, hq, rfl⟩ := List.mem_map.mp hx
    exact corrsFor_getD_nonneg dfn variaveis ref q hq
  have hle := List.single_le_sum hnn _ hmem
  have h0 : 0 < p.2.getD 0 := lt_of_le_of_ne (corrsFor_getD_nonneg dfn variaveis ref p hp) (Ne.symm hne)
  exact lt_of_lt_of_le h0 hle

/-- When the correlation sum is nonzero, each weight reads (skipping
NaN as 0) as the corresponding correlation divided by the sum. -/
theorem pesosFrom_getD (corrs : List (String × Option ℚ))
    (hs : somaCorrs corrs ≠ 0) :
    ((pesosFrom corrs).map fun q => q.2.getD 0) =
      ((corrs.map fun p => p.2.getD 0).map fun x => x / somaCorrs corrs) := by
  unfold pesosFrom
  rw [List.map_map, List.map_map]
  apply List.map_congr_left
  intro p _
  cases hp : p.2 with
  | none => simp [hp, hs]
  | some c => simp [hp, hs]

/-- The weights returned by pesosFrom always sum (skipping NaN entries
as pandas does) to exactly 1 when the correlation sum is nonzero. -/
theorem pesosFrom_sum_one (corrs : List (String × Option ℚ))
    (hs : somaCorrs corrs ≠ 0) :
    (((pesosFrom corrs).map fun q => q.2.getD 0).sum) = 1 := by
  rw [pesosFrom_getD corrs hs, sum_map_div]
  exact div_self hs

/-- When the correlation sum is nonzero, a defined correlation entry
yields a defined weight entry with value corr divided by sum. -/
theorem pesosFrom_entry (corrs : List (String × Option ℚ))
    (hs : somaCorrs corrs ≠ 0) {p : String × Option ℚ} (hp : p ∈ corrs) {c : ℚ}
    (hc : p.2 = some c) :
    (p.1, some (c / somaCorrs corrs)) ∈ pesosFrom corrs := by
  unfold pesosFrom
  have : (p.1, (p.2.bind fun c => if somaCorrs corrs = 0 then none
      else some (c / somaCorrs corrs))) ∈ corrs.map fun p =>
        (p.1, p.2.bind fun c => if somaCorrs corrs = 0 then none
          else some (c / somaCorrs corrs)) :=
    List.mem_map_of_mem _ hp
  rw [hc] at this
  simpa [hs] using this

/-- Unfolding of a successful calcular_pesos_correlacao call: the frame
is the normalized copy and the weights come from the correlation
series, with both KeyError guards passed. -/
theorem calcular_pesos_ok {database : DataFrame} {variaveis : List String}
    {ref : String} {dfn : DataFrame} {pesos : List (String × Option ℚ)}
    (h : calcular_pesos_correlacao database variaveis ref = Except.ok (dfn, pesos)) :
    dfn = normalizarColunas database variaveis ∧
    pesos = pesosFrom (corrsFor (normalizarColunas database variaveis) variaveis ref) ∧
    ref ∈ variaveis ∧ variaveis.all database.hasCol = true := by
  unfold calcular_pesos_correlacao at h
  split at h
  case isTrue hall =>
    split at h
    case isTrue href =>
      simp only [Except.ok.injEq, Prod.mk.injEq] at h
      exact ⟨h.1.symm, h.2.symm, href, hall⟩
    case isFalse => exact absurd h (by simp)
  case isFalse => exact absurd h (by simp)

/-- Moving the selected element to the front is a permutation. -/
theorem perm_getD_cons_eraseIdx :
    ∀ (xs : List ℕ) (i : ℕ), i < xs.length →
      xs.Perm (xs.getD i 0 :: xs.eraseIdx i) := by
  intro xs
  induction xs with
  | nil => intro i hi; simp at hi
  | cons x l ih =>
    intro i hi
    cases i with
    | zero => simp
    | succ j =>
      have hj : j < l.length := by simpa using hi
      have h1 := ih j hj
      simp only [List.getD_cons_succ, List.eraseIdx_cons_succ]
      exact (h1.cons x).trans (List.Perm.swap _ _ _)

/-- The fueled Fisher-Yates shuffle permutes its input when the fuel
covers the length. -/
theorem shuffleAux_perm :
    ∀ (fuel st : ℕ) (xs : List ℕ), xs.length ≤ fuel →
      (shuffleAux fuel st xs).Perm xs := by
  intro fuel
  induction fuel with
  | zero =>
    intro st xs h
    have : xs = [] := List.eq_nil_of_length_eq_zero (Nat.le_zero.mp h)
    subst this
    simp [shuffleAux]
  | succ n ih =>
    intro st xs h
    cases xs with
    | nil => simp [shuffleAux]
    | cons x l =>
      rw [shuffleAux]
      have hi : st % (x :: l).length < (x :: l).length := Nat.mod_lt _ (by simp)
      have hlen : ((x :: l).eraseIdx (st % (x :: l).length)).length ≤ n := by
        rw [List.length_eraseIdx_of_lt hi]
        simpa using Nat.le_of_succ_le_succ h
      exact ((ih (lcgNext st) _ hlen).cons _).trans
        (perm_getD_cons_eraseIdx (x :: l) _ hi).symm

/-- The seeded shuffle is a permutation of the index list. -/
theorem shuffleList_perm (seed : ℕ) (xs : List ℕ) :
    (shuffleList seed xs).Perm xs :=
  shuffleAux_perm _ _ _ le_rfl

/-- A successful train-test index split is a clean partition of the row
indices: disjoint sides, together a permutation of range n, sizes
adding up to n, and no duplicate index on either side. -/
theorem splitIndices_spec {seed n : ℕ} {test_size : ℚ} {tr te : List ℕ}
    (h : splitIndices seed n test_size = some (tr, te)) :
    tr.Disjoint te ∧ (tr ++ te).Perm (List.range n) ∧
    tr.length + te.length = n ∧ tr.Nodup ∧ te.Nodup := by
  unfold splitIndices at h
  dsimp only at h
  split at h
  · exact absurd h (by simp)
  case isFalse hguard =>
    simp only [Option.some.injEq, Prod.mk.injEq] at h
    obtain ⟨htr, hte⟩ := h
    subst htr
    subst hte
    set nt := nTestFrom test_size n with hnt
    set perm := shuffleList seed (List.range n) with hpermdef
    have hperm : perm.Perm (List.range n) := shuffleList_perm _ _
    have hnd : perm.Nodup := (hperm.nodup_iff).mpr (List.nodup_range n)
    have hlenp : perm.length = n := by simpa using hperm.length_eq
    have hntn : nt < n := by
      push_neg at hguard
      omega
    refine ⟨List.Disjoint.symm (List.disjoint_take_drop hnd le_rfl), ?_, ?_, ?_, ?_⟩
    · have h2 : (perm.drop nt ++ perm.take nt).Perm (perm.take nt ++ perm.drop nt) :=
        List.perm_append_comm
      rw [List.take_append_drop] at h2
      exact h2.trans hperm
    · simp [hlenp]
      omega
    · exact (List.drop_sublist _ _).nodup hnd
    · exact (List.take_sublist _ _).nodup hnd

/-- Rows that survive the dropna filter carry exactly the label that
pd.cut assigns to their stored index value. -/
theorem keep_rows_classified (indice : List (Option ℚ)) (n : ℕ)
    (classe : List (Option String))
    (hclasse : classe = indice.map fun o => o.bind cutClassify)
    (hlen : indice.length = n) :
    ∀ pr ∈ (((List.range n).filter fun i =>
          ((indice.getD i none).isSome && (classe.getD i none).isSome)).map
        fun i => ((indice.getD i none).getD 0, (classe.getD i none).getD ("")) ),
      cutClassify pr.1 = some pr.2 := by
  intro pr hpr
  obtain ⟨i, hik, rfl⟩ := List.mem_map.mp hpr
  rw [List.mem_filter] at hik
  obtain ⟨hir, hcond⟩ := hik
  have hi : i < indice.length := hlen ▸ List.mem_range.mp hir
  have hclasseD : classe.getD i none = (indice.getD i none).bind cutClassify := by
    subst hclasse
    rw [List.getD_eq_getElem?_getD, List.getElem?_map,
      List.getD_eq_getElem?_getD indice]
    cases h2 : indice[i]? with
    | none =>
      exact absurd (List.getElem?_eq_none_iff.mp h2) (by omega)
    | some o => simp
  rw [Bool.and_eq_true] at hcond
  obtain ⟨v, hv⟩ := Option.isSome_iff_exists.mp hcond.1
  have hlab := hcond.2
  rw [hclasseD, hv] at hlab ⊢
  obtain ⟨lab, hl⟩ := Option.isSome_iff_exists.mp hlab
  simp only [Option.some_bind] at hl ⊢
  simp [hl]

/-- Looking a name up in a series built over the name list returns the
value attached to that name. -/
theorem lookupPeso_map (variaveis : List String) (f : String → Option ℚ)
    (name : String) (h : name ∈ variaveis) :
    lookupPeso (variaveis.map fun v => (v, f v)) name = f name := by
  induction variaveis with
  | nil => simp at h
  | cons v rest ih =>
    simp only [List.map_cons, lookupPeso]
    by_cases hv : v = name
    · subst hv
      simp
    · have hr : name ∈ rest := by
        rcases List.mem_cons.mp h with h1 | h1
        · exact absurd h1.symm hv
        · exact h1
      simp [hv, ih hr]

/-- The weight series is the correlation series transformed entrywise,
keyed by the same variable names. -/
theorem pesosFrom_corrsFor_eq (dfn : DataFrame) (variaveis : List String)
    (ref : String) :
    pesosFrom (corrsFor dfn variaveis ref) =
      variaveis.map fun v => (v,
        (pearsonAbs (dfn.col v) (dfn.col ref)).bind fun c =>
          if somaCorrs (corrsFor dfn variaveis ref) = 0 then none
          else some (c / somaCorrs (corrsFor dfn variaveis ref))) := by
  unfold pesosFrom corrsFor
  rw [List.map_map]
  rfl

/-- Every column of the mutated frame produced by the classification
function has one value per retained row, and the column names are the
ones of the frame that was passed in. -/
theorem classif_base_shape (df_norm : DataFrame) (variaveis : List String)
    (pesos : List (String × Option ℚ)) :
    ((calcular_classificacao_indice df_norm variaveis pesos).base.cols.map
        Prod.fst = df_norm.cols.map Prod.fst) ∧
    (∀ p ∈ (calcular_classificacao_indice df_norm variaveis pesos).base.cols,
      p.2.length =
        (calcular_classificacao_indice df_norm variaveis pesos).classificacao.length) ∧
    (calcular_classificacao_indice df_norm variaveis pesos).indice.length =
      (calcular_classificacao_indice df_norm variaveis pesos).classificacao.length := by
  unfold calcular_classificacao_indice
  dsimp only
  refine ⟨?_, ?_, ?_⟩
  · rw [List.map_map]
    rfl
  · intro p hp
    obtain ⟨q, _, rfl⟩ := List.mem_map.mp hp
    simp
  · simp

/-- C1 counterexample: a rescaled index of exactly 0.0 is NOT classified
as the low tier; pd.cut leaves it unlabelled and the dropna step removes
the row, as the concrete run with rescaled indices [0, 1/2, 1] shows:
only two rows survive, labelled medio and alto. -/
theorem C1_counterexample :
    cutClassify 0 = none ∧
    (calcular_classificacao_indice ⟨[("x", [0, 1/2, 1])]⟩ ["x"]
        [("x", some 1)]).classificacao = ["médio", "alto"] ∧
    (calcular_classificacao_indice ⟨[("x", [0, 1/2, 1])]⟩ ["x"]
        [("x", some 1)]).indice = [1/2, 1] := by
  refine ⟨by norm_num [cutClassify], ?_⟩
  have h : calcular_classificacao_indice ⟨[("x", [0, 1/2, 1])]⟩ ["x"]
      [("x", some 1)] =
      { base := ⟨[("x", [1/2, 1])]⟩, indice := [1/2, 1],
        classificacao := ["médio", "alto"] } := by
    norm_num [calcular_classificacao_indice, DataFrame.nrows, indiceBruto,
      lookupPeso, DataFrame.col, lookupCol, minOf, maxOf, min_def, max_def,
      cutClassify, show List.range 3 = [0, 1, 2] from by decide,
      List.filter, List.getD]
  rw [h]
  exact ⟨rfl, rfl⟩

/-- C1 amended: classification is a pure function of the rescaled index
with bins (0, 0.33] to baixo, (0.33, 0.66] to medio, (0.66, 1] to alto;
an index of exactly 0.0 receives no label (the row is dropped by the
dropna step), while 0.33 is baixo, 0.34 and 0.66 are medio, 0.67 and
1.0 are alto; and every row retained by calcular_classificacao_indice
carries exactly the label pd.cut assigns to its stored index value. -/
theorem C1_classification_boundaries :
    (∀ v : ℚ, 0 < v → v ≤ 33 / 100 → cutClassify v = some ("baixo")) ∧
    (∀ v : ℚ, 33 / 100 < v → v ≤ 66 / 100 → cutClassify v = some ("médio")) ∧
    (∀ v : ℚ, 66 / 100 < v → v ≤ 1 → cutClassify v = some ("alto")) ∧
    cutClassify 0 = none ∧
    cutClassify (33 / 100) = some ("baixo") ∧
    cutClassify (34 / 100) = some ("médio") ∧
    cutClassify (66 / 100) = some ("médio") ∧
    cutClassify (67 / 100) = some ("alto") ∧
    cutClassify 1 = some ("alto") ∧
    (∀ (dfn : DataFrame) (variaveis : List String)
        (pesos : List (String × Option ℚ)),
      ∀ pr ∈ ((calcular_classificacao_indice dfn variaveis pesos).indice.zip
          (calcular_classificacao_indice dfn variaveis pesos).classificacao),
        cutClassify pr.1 = some pr.2) := by
  refine ⟨?_, ?_, ?_, by norm_num [cutClassify], by norm_num [cutClassify],
    by norm_num [cutClassify], by norm_num [cutClassify],
    by norm_num [cutClassify], by norm_num [cutClassify], ?_⟩
  · intro v h1 h2
    unfold cutClassify
    rw [if_pos ⟨h1, h2⟩]
  · intro v h1 h2
    unfold cutClassify
    rw [if_neg (by rintro ⟨_, hle⟩; linarith), if_pos ⟨h1, h2⟩]
  · intro v h1 h2
    unfold cutClassify
    rw [if_neg (by rintro ⟨_, hle⟩; linarith),
      if_neg (by rintro ⟨_, hle⟩; linarith), if_pos ⟨h1, h2⟩]
  · intro dfn variaveis pesos pr hpr
    unfold calcular_classificacao_indice at hpr
    dsimp only at hpr
    rw [List.zip_map'] at hpr
    exact keep_rows_classified _ dfn.nrows _ rfl (by simp) pr hpr

/-- C1 witness: the interval clauses of the boundary theorem applied at
the concrete points 1/10, 1/2 and 9/10. -/
theorem C1_classification_boundaries_witness :
    cutClassify (1 / 10) = some ("baixo") ∧
    cutClassify (1 / 2) = some ("médio") ∧
    cutClassify (9 / 10) = some ("alto") :=
  ⟨C1_classification_boundaries.1 (1 / 10) (by norm_num) (by norm_num),
   C1_classification_boundaries.2.1 (1 / 2) (by norm_num) (by norm_num),
   C1_classification_boundaries.2.2.1 (9 / 10) (by norm_num) (by norm_num)⟩

/-- C2 counterexample: on the 3-row table with the single feature
column [1, 2, 3] used as its own reference, the pipeline does compute
weight 1 and normalized column [0, 1/2, 1], but the classification
output is NOT the three labels low, medium, high: the first row (index
exactly 0) is dropped, leaving only two labels. -/
theorem C2_counterexample :
    calcular_pesos_correlacao ⟨[("x", [1, 2, 3])]⟩ ["x"] "x" =
      Except.ok (⟨[("x", [0, 1/2, 1])]⟩, [("x", some 1)]) ∧
    (calcular_classificacao_indice ⟨[("x", [0, 1/2, 1])]⟩ ["x"]
        [("x", some 1)]).classificacao ≠ ["baixo", "médio", "alto"] := by
  constructor
  · norm_num [calcular_pesos_correlacao, DataFrame.hasCol, hasColB,
      normalizarColunas, minMaxScaler, minOf, maxOf, min_def, max_def,
      corrsFor, pesosFrom, somaCorrs, DataFrame.col, lookupCol,
      pearsonAbs, sxy, meanQ, sqrtQ, show isqrt 4 = 2 from by decide,
      Int.toNat_ofNat]
  · have h : calcular_classificacao_indice ⟨[("x", [0, 1/2, 1])]⟩ ["x"]
        [("x", some 1)] =
        { base := ⟨[("x", [1/2, 1])]⟩, indice := [1/2, 1],
          classificacao := ["médio", "alto"] } := by
      norm_num [calcular_classificacao_indice, DataFrame.nrows, indiceBruto,
        lookupPeso, DataFrame.col, lookupCol, minOf, maxOf, min_def, max_def,
        cutClassify, show List.range 3 = [0, 1, 2] from by decide,
        List.filter, List.getD]
    rw [h]
    simp

/-- C2 amended: on the 3-row table with feature column [1, 2, 3] equal
to the reference, the correlation is 1, the weight is 1, the normalized
column is [0, 1/2, 1] and the raw composite index rescales to
[0, 1/2, 1]; the classification then drops the index-0 row and labels
the remaining rows medio and alto. -/
theorem C2_scenario :
    calcular_pesos_correlacao ⟨[("x", [1, 2, 3])]⟩ ["x"] "x" =
      Except.ok (⟨[("x", [0, 1/2, 1])]⟩, [("x", some 1)]) ∧
    pearsonAbs ([0, 1/2, 1] : List ℚ) ([0, 1/2, 1] : List ℚ) = some 1 ∧
    calcular_classificacao_indice ⟨[("x", [0, 1/2, 1])]⟩ ["x"]
        [("x", some 1)] =
      { base := ⟨[("x", [1/2, 1])]⟩, indice := [1/2, 1],
        classificacao := ["médio", "alto"] } := by
  refine ⟨?_, ?_, ?_⟩
  · norm_num [calcular_pesos_correlacao, DataFrame.hasCol, hasColB,
      normalizarColunas, minMaxScaler, minOf, maxOf, min_def, max_def,
      corrsFor, pesosFrom, somaCorrs, DataFrame.col, lookupCol,
      pearsonAbs, sxy, meanQ, sqrtQ, show isqrt 4 = 2 from by decide,
      Int.toNat_ofNat]
  · norm_num [pearsonAbs, sxy, meanQ, sqrtQ,
      show isqrt 4 = 2 from by decide, Int.toNat_ofNat]
  · norm_num [calcular_classificacao_indice, DataFrame.nrows, indiceBruto,
      lookupPeso, DataFrame.col, lookupCol, minOf, maxOf, min_def, max_def,
      cutClassify, show List.range 3 = [0, 1, 2] from by decide,
      List.filter, List.getD]

/-- C3: on the degenerate input whose only feature is the constant
column [5, 5, 5] (also the reference), the sum of absolute correlations
is zero, yet calcular_pesos_correlacao does NOT fail: it returns
success with a NaN weight vector (the spec requires an explicit
descriptive error here and flags the NaN leakage of the original code
as a latent defect). -/
theorem C3_nan_weights :
    calcular_pesos_correlacao ⟨[("x", [5, 5, 5])]⟩ ["x"] "x" =
      Except.ok (⟨[("x", [0, 0, 0])]⟩, [("x", none)]) := by
  norm_num [calcular_pesos_correlacao, DataFrame.hasCol, hasColB,
    normalizarColunas, minMaxScaler, minOf, maxOf, min_def, max_def,
    corrsFor, pesosFrom, somaCorrs, DataFrame.col, lookupCol,
    pearsonAbs, sxy, meanQ]

/-- C4 counterexample: with feature columns x = [1, 2, 3] (the
reference, absolute correlation exactly 1, so the nonzero-correlation
precondition holds) and the constant column c = [5, 5, 5], the call
succeeds but the weight for c is NaN: the returned vector does not
consist of nonnegative values. -/
theorem C4_counterexample :
    calcular_pesos_correlacao ⟨[("x", [1, 2, 3]), ("c", [5, 5, 5])]⟩
        ["x", "c"] "x" =
      Except.ok (⟨[("x", [0, 1/2, 1]), ("c", [0, 0, 0])]⟩,
        [("x", some 1), ("c", none)]) ∧
    ¬ (∀ q ∈ [("x", some (1 : ℚ)), ("c", (none : Option ℚ))],
        ∃ w, q.2 = some w ∧ 0 ≤ w) := by
  constructor
  · have hnorm : normalizarColunas ⟨[("x", [1, 2, 3]), ("c", [5, 5, 5])]⟩
        ["x", "c"] = ⟨[("x", [0, 1/2, 1]), ("c", [0, 0, 0])]⟩ := by
      norm_num [normalizarColunas, minMaxScaler, minOf, maxOf, min_def, max_def]
    have hpx : pearsonAbs ([0, (2 : ℚ)⁻¹, 1]) ([0, (2 : ℚ)⁻¹, 1]) =
        some 1 := by
      norm_num [pearsonAbs, sxy, meanQ, sqrtQ,
        show isqrt 4 = 2 from by decide, Int.toNat_ofNat]
    have hpc : pearsonAbs ([0, 0, 0] : List ℚ) ([0, (2 : ℚ)⁻¹, 1]) =
        none := pearsonAbs_none_left (by norm_num [sxy, meanQ])
    have hcorrs : corrsFor ⟨[("x", [0, 1/2, 1]), ("c", [0, 0, 0])]⟩
        ["x", "c"] "x" = [("x", some 1), ("c", none)] := by
      simp [corrsFor, DataFrame.col, lookupCol, hpx, hpc]
    unfold calcular_pesos_correlacao
    rw [if_pos (by decide), hnorm, if_pos (by decide), hcorrs]
    norm_num [pesosFrom, somaCorrs]
  · intro h
    obtain ⟨w, hw, _⟩ := h ("c", none) (by simp)
    simp at hw

/-- C4 amended: whenever calcular_pesos_correlacao succeeds, every
correlation with the reference is defined (no NaN entry), and at least
one of them is nonzero, the returned weight vector consists of defined
nonnegative values and its entries sum to exactly 1. -/
theorem C4_weights {database : DataFrame} {variaveis : List String}
    {ref : String} {dfn : DataFrame} {pesos : List (String × Option ℚ)}
    (hok : calcular_pesos_correlacao database variaveis ref =
      Except.ok (dfn, pesos))
    (hdef : ∀ p ∈ corrsFor dfn variaveis ref, p.2.isSome = true)
    (hnz : ∃ p ∈ corrsFor dfn variaveis ref, p.2.getD 0 ≠ 0) :
    (∀ q ∈ pesos, ∃ w, q.2 = some w ∧ 0 ≤ w) ∧
    ((pesos.map fun q => q.2.getD 0).sum) = 1 := by
  obtain ⟨hdfn, hpesos, href, hall⟩ := calcular_pesos_ok hok
  subst hdfn
  subst hpesos
  obtain ⟨p, hp, hne⟩ := hnz
  have hs : 0 < somaCorrs (corrsFor (normalizarColunas database variaveis)
      variaveis ref) := somaCorrs_pos hp hne
  constructor
  · intro q hq
    unfold pesosFrom at hq
    obtain ⟨r, hr, rfl⟩ := List.mem_map.mp hq
    obtain ⟨c, hc⟩ := Option.isSome_iff_exists.mp (hdef r hr)
    refine ⟨c / somaCorrs (corrsFor (normalizarColunas database variaveis)
      variaveis ref), ?_, ?_⟩
    · simp [hc, hs.ne']
    · have hnn := corrsFor_getD_nonneg (normalizarColunas database variaveis)
        variaveis ref r hr
      rw [hc] at hnn
      exact div_nonneg (by simpa using hnn) hs.le
  · exact pesosFrom_sum_one _ hs.ne'

/-- C4 witness: the amended weight theorem applied to the 3-row table
with the single feature column [1, 2, 3] used as its own reference. -/
theorem C4_weights_witness :
    (∀ q ∈ [("x", some (1 : ℚ))], ∃ w, q.2 = some w ∧ 0 ≤ w) ∧
    (([("x", some (1 : ℚ))].map fun q => q.2.getD 0).sum) = 1 :=
  @C4_weights ⟨[("x", [1, 2, 3])]⟩ ["x"] "x" ⟨[("x", [0, 1/2, 1])]⟩
    [("x", some 1)]
    (by norm_num [calcular_pesos_correlacao, DataFrame.hasCol, hasColB,
      normalizarColunas, minMaxScaler, minOf, maxOf, min_def, max_def,
      corrsFor, pesosFrom, somaCorrs, DataFrame.col, lookupCol,
      pearsonAbs, sxy, meanQ, sqrtQ, show isqrt 4 = 2 from by decide,
      Int.toNat_ofNat])
    (by norm_num [corrsFor, DataFrame.col, lookupCol, pearsonAbs, sxy,
      meanQ, sqrtQ, show isqrt 4 = 2 from by decide, Int.toNat_ofNat])
    (⟨("x", some 1), by
      norm_num [corrsFor, DataFrame.col, lookupCol, pearsonAbs, sxy,
        meanQ, sqrtQ, show isqrt 4 = 2 from by decide, Int.toNat_ofNat],
      by norm_num⟩)

/-- Monotone maps commute with the column minimum. -/
theorem minOf_map_mono (f : ℚ → ℚ) (hf : Monotone f) :
    ∀ xs : List ℚ, xs ≠ [] → minOf (xs.map f) = f (minOf xs) := by
  intro xs
  induction xs with
  | nil => intro h; exact absurd rfl h
  | cons a l ih =>
    intro _
    cases l with
    | nil => simp [minOf]
    | cons b m =>
      have h1 : minOf ((a :: b :: m).map f) = min (f a) (minOf ((b :: m).map f)) := rfl
      rw [h1, ih (by simp), ← hf.map_min]
      rfl

/-- Monotone maps commute with the column maximum. -/
theorem maxOf_map_mono (f : ℚ → ℚ) (hf : Monotone f) :
    ∀ xs : List ℚ, xs ≠ [] → maxOf (xs.map f) = f (maxOf xs) := by
  intro xs
  induction xs with
  | nil => intro h; exact absurd rfl h
  | cons a l ih =>
    intro _
    cases l with
    | nil => simp [maxOf]
    | cons b m =>
      have h1 : maxOf ((a :: b :: m).map f) = max (f a) (maxOf ((b :: m).map f)) := rfl
      rw [h1, ih (by simp), ← hf.map_max]
      rfl

/-- On a nonconstant column the scaler denominator is the plain range
max minus min, so the documented formula applies verbatim. -/
theorem minMaxScaler_nonconst {xs : List ℚ} (hd : minOf xs ≠ maxOf xs) :
    minMaxScaler xs = xs.map fun x => (x - minOf xs) / (maxOf xs - minOf xs) := by
  unfold minMaxScaler
  dsimp only
  rw [if_neg (fun h => hd (by linarith [sub_eq_zero.mp h]))]

/-- The affine rescaling map of a nonconstant column is monotone. -/
theorem rescale_monotone {mn mx : ℚ} (h : mn < mx) :
    Monotone fun x : ℚ => (x - mn) / (mx - mn) := by
  intro a b hab
  have hpos : 0 < mx - mn := by linarith
  exact div_le_div_of_nonneg_right (by linarith) hpos.le

/-- C5: the Normalizer contract.  Non-listed columns pass through
unchanged, lengths (row counts) and the column-name order are
preserved, and every listed nonconstant column is rewritten by
scaled = (x - min) / (max - min), with its new minimum exactly 0 and
its new maximum exactly 1. -/
theorem C5_normalizer (df : DataFrame) (variaveis : List String) :
    (∀ name, name ∉ variaveis →
      (normalizarColunas df variaveis).col name = df.col name) ∧
    (∀ name, ((normalizarColunas df variaveis).col name).length =
      (df.col name).length) ∧
    ((normalizarColunas df variaveis).cols.map Prod.fst =
      df.cols.map Prod.fst) ∧
    (∀ v ∈ variaveis, ∀ xs, df.col v = xs → xs ≠ [] →
      minOf xs ≠ maxOf xs →
        (normalizarColunas df variaveis).col v =
          xs.map (fun x => (x - minOf xs) / (maxOf xs - minOf xs)) ∧
        minOf ((normalizarColunas df variaveis).col v) = 0 ∧
        maxOf ((normalizarColunas df variaveis).col v) = 1) := by
  refine ⟨?_, ?_, ?_, ?_⟩
  · intro name hname
    rw [normalizarColunas_col, if_neg hname]
  · intro name
    rw [normalizarColunas_col]
    by_cases h : name ∈ variaveis
    · rw [if_pos h]
      simp [minMaxScaler]
    · rw [if_neg h]
  · unfold normalizarColunas
    rw [List.map_map]
    rfl
  · intro v hv xs hxs hne hd
    have hlt : minOf xs < maxOf xs :=
      lt_of_le_of_ne (minOf_le _ (maxOf_mem hne)) hd
    have hcol : (normalizarColunas df variaveis).col v =
        xs.map fun x => (x - minOf xs) / (maxOf xs - minOf xs) := by
      rw [normalizarColunas_col, if_pos hv, hxs, minMaxScaler_nonconst hd]
    refine ⟨hcol, ?_, ?_⟩
    · rw [hcol, minOf_map_mono _ (rescale_monotone hlt) xs hne]
      simp
    · rw [hcol, maxOf_map_mono _ (rescale_monotone hlt) xs hne]
      rw [div_self (by linarith)]

/-- C5 witness: the Normalizer contract applied to a two-column frame
where only x is listed: x = [1, 2, 3] becomes [0, 1/2, 1] with minimum
0 and maximum 1, and the non-listed column s survives untouched. -/
theorem C5_normalizer_witness :
    (normalizarColunas ⟨[("x", [1, 2, 3]), ("s", [7, 8, 9])]⟩ ["x"]).col "s" =
      (⟨[("x", [1, 2, 3]), ("s", [7, 8, 9])]⟩ : DataFrame).col "s" ∧
    (normalizarColunas ⟨[("x", [1, 2, 3]), ("s", [7, 8, 9])]⟩ ["x"]).col "x" =
      ([1, 2, 3] : List ℚ).map
        (fun x => (x - minOf [1, 2, 3]) / (maxOf [1, 2, 3] - minOf [1, 2, 3])) ∧
    minOf ((normalizarColunas ⟨[("x", [1, 2, 3]), ("s", [7, 8, 9])]⟩ ["x"]).col "x") = 0 ∧
    maxOf ((normalizarColunas ⟨[("x", [1, 2, 3]), ("s", [7, 8, 9])]⟩ ["x"]).col "x") = 1 := by
  have h := C5_normalizer ⟨[("x", [1, 2, 3]), ("s", [7, 8, 9])]⟩ ["x"]
  have h4 := h.2.2.2 "x" (by decide) [1, 2, 3]
    (by norm_num [DataFrame.col, lookupCol]) (by decide)
    (by norm_num [minOf, maxOf, min_def, max_def])
  exact ⟨h.1 "s" (by decide), h4.1, h4.2.1, h4.2.2⟩

/-- C6 counterexample: a listed column with the identical value 5 in
all of its 3 rows does NOT make normalization raise a degenerate-data
error; the whole weight call succeeds and the column is silently
rescaled to the numeric values [0, 0, 0]. -/
theorem C6_counterexample :
    calcular_pesos_correlacao ⟨[("c", [5, 5, 5]), ("y", [1, 2, 3])]⟩
        ["c", "y"] "y" =
      Except.ok (⟨[("c", [0, 0, 0]), ("y", [0, 1/2, 1])]⟩,
        [("c", none), ("y", some 1)]) := by
  have hnorm : normalizarColunas ⟨[("c", [5, 5, 5]), ("y", [1, 2, 3])]⟩
      ["c", "y"] = ⟨[("c", [0, 0, 0]), ("y", [0, 1/2, 1])]⟩ := by
    norm_num [normalizarColunas, minMaxScaler, minOf, maxOf, min_def, max_def]
  have hpy : pearsonAbs ([0, (2 : ℚ)⁻¹, 1]) ([0, (2 : ℚ)⁻¹, 1]) =
      some 1 := by
    norm_num [pearsonAbs, sxy, meanQ, sqrtQ,
      show isqrt 4 = 2 from by decide, Int.toNat_ofNat]
  have hpc : pearsonAbs ([0, 0, 0] : List ℚ) ([0, (2 : ℚ)⁻¹, 1]) =
      none := pearsonAbs_none_left (by norm_num [sxy, meanQ])
  have hcorrs : corrsFor ⟨[("c", [0, 0, 0]), ("y", [0, 1/2, 1])]⟩
      ["c", "y"] "y" = [("c", none), ("y", some 1)] := by
    simp [corrsFor, DataFrame.col, lookupCol, hpy, hpc]
  unfold calcular_pesos_correlacao
  rw [if_pos (by decide), hnorm, if_pos (by decide), hcorrs]
  norm_num [pesosFrom, somaCorrs]

/-- C6 amended: normalization of a constant listed column raises no
error and produces no NaN: sklearn replaces the zero range by 1 in the
denominator, so every row of the column is mapped to the number 0. -/
theorem C6_constant_column (df : DataFrame) (variaveis : List String)
    (v : String) (c : ℚ) (xs : List ℚ) (hv : v ∈ variaveis)
    (hcol : df.col v = xs) (hne : xs ≠ []) (hconst : ∀ x ∈ xs, x = c) :
    (normalizarColunas df variaveis).col v = xs.map fun _ => (0 : ℚ) := by
  rw [normalizarColunas_col, if_pos hv, hcol]
  have hmn : minOf xs = c := hconst _ (minOf_mem hne)
  unfold minMaxScaler
  dsimp only
  apply List.map_congr_left
  intro x hx
  rw [hconst x hx, hmn]
  simp

/-- C6 witness: the constant-column normalization applied to the
column [5, 5, 5]. -/
theorem C6_constant_column_witness :
    (normalizarColunas ⟨[("c", [5, 5, 5])]⟩ ["c"]).col "c" =
      ([5, 5, 5] : List ℚ).map fun _ => (0 : ℚ) :=
  C6_constant_column ⟨[("c", [5, 5, 5])]⟩ ["c"] "c" 5 [5, 5, 5]
    (by decide) (by norm_num [DataFrame.col, lookupCol]) (by decide)
    (by intro x hx; simp at hx; exact hx)

/-- C7 counterexample: calcular_classificacao_indice mutates the frame
object handed to it (the returned frame IS that object): after the
call on the normalized frame with column [0, 1/2, 1], the caller's
frame has lost a row and carries a new nonempty classification column,
so it is not left unchanged. -/
theorem C7_counterexample :
    ((calcular_classificacao_indice ⟨[("x", [0, 1/2, 1])]⟩ ["x"]
        [("x", some 1)]).base ≠ ⟨[("x", [0, 1/2, 1])]⟩) ∧
    ((calcular_classificacao_indice ⟨[("x", [0, 1/2, 1])]⟩ ["x"]
        [("x", some 1)]).classificacao ≠ []) := by
  have h : calcular_classificacao_indice ⟨[("x", [0, 1/2, 1])]⟩ ["x"]
      [("x", some 1)] =
      { base := ⟨[("x", [1/2, 1])]⟩, indice := [1/2, 1],
        classificacao := ["médio", "alto"] } := by
    norm_num [calcular_classificacao_indice, DataFrame.nrows, indiceBruto,
      lookupPeso, DataFrame.col, lookupCol, minOf, maxOf, min_def, max_def,
      cutClassify, show List.range 3 = [0, 1, 2] from by decide,
      List.filter, List.getD]
  rw [h]
  refine ⟨fun hc => ?_, by simp⟩
  have := congrArg (fun d => (DataFrame.col d "x").length) hc
  norm_num [DataFrame.col, lookupCol] at this

/-- C7 amended: calcular_pesos_correlacao and preparar_dados_para_modelo
copy the frame on entry and leave the caller's table unchanged, but
calcular_classificacao_indice operates in place on the frame it is
passed: the caller's object afterwards keeps the column names yet holds
one value per RETAINED row in every column (rows were dropped in place)
together with the added index and classification columns. -/
theorem C7_frame_effects :
    (∀ (df : DataFrame) (variaveis : List String) (ref : String),
      calcular_pesos_correlacao_inputAfter df variaveis ref = df) ∧
    (∀ (df : DataFrame) (alvo : String) (exp : List String) (ts : ℚ) (seed : ℕ),
      preparar_dados_para_modelo_inputAfter df alvo exp ts seed = df) ∧
    (∀ (df : DataFrame) (variaveis : List String)
        (pesos : List (String × Option ℚ)),
      ((calcular_classificacao_indice df variaveis pesos).base.cols.map
        Prod.fst = df.cols.map Prod.fst) ∧
      ∀ p ∈ (calcular_classificacao_indice df variaveis pesos).base.cols,
        p.2.length =
          (calcular_classificacao_indice df variaveis pesos).classificacao.length) := by
  refine ⟨fun _ _ _ => rfl, fun _ _ _ _ _ => rfl, fun df variaveis pesos => ?_⟩
  obtain ⟨h1, h2, _⟩ := classif_base_shape df variaveis pesos
  exact ⟨h1, h2⟩

/-- C7 witness: the frame-effect theorem applied to concrete calls. -/
theorem C7_frame_effects_witness :
    calcular_pesos_correlacao_inputAfter ⟨[("x", [1, 2, 3])]⟩ ["x"] "x" =
      ⟨[("x", [1, 2, 3])]⟩ ∧
    preparar_dados_para_modelo_inputAfter ⟨[("x", [1, 2, 3])]⟩ "x" ["x"]
      (3 / 10) 42 = ⟨[("x", [1, 2, 3])]⟩ ∧
    ("x", [(1 : ℚ)/2, 1]) ∈ (calcular_classificacao_indice
        ⟨[("x", [0, 1/2, 1])]⟩ ["x"] [("x", some 1)]).base.cols ∧
    ([(1 : ℚ)/2, 1] : List ℚ).length = (calcular_classificacao_indice
        ⟨[("x", [0, 1/2, 1])]⟩ ["x"] [("x", some 1)]).classificacao.length := by
  have hmem : ("x", [(1 : ℚ)/2, 1]) ∈ (calcular_classificacao_indice
      ⟨[("x", [0, 1/2, 1])]⟩ ["x"] [("x", some 1)]).base.cols := by
    have h : calcular_classificacao_indice ⟨[("x", [0, 1/2, 1])]⟩ ["x"]
        [("x", some 1)] =
        { base := ⟨[("x", [1/2, 1])]⟩, indice := [1/2, 1],
          classificacao := ["médio", "alto"] } := by
      norm_num [calcular_classificacao_indice, DataFrame.nrows, indiceBruto,
        lookupPeso, DataFrame.col, lookupCol, minOf, maxOf, min_def, max_def,
        cutClassify, show List.range 3 = [0, 1, 2] from by decide,
        List.filter, List.getD]
    rw [h]
    simp
  exact ⟨C7_frame_effects.1 ⟨[("x", [1, 2, 3])]⟩ ["x"] "x",
    C7_frame_effects.2.1 ⟨[("x", [1, 2, 3])]⟩ "x" ["x"] (3 / 10) 42,
    hmem,
    (C7_frame_effects.2.2 ⟨[("x", [0, 1/2, 1])]⟩ ["x"] [("x", some 1)]).2
      ("x", [1/2, 1]) hmem⟩

/-- C8: the Split Helper is deterministic: the embedding makes the seed
an explicit argument (there is no ambient generator state), so two
calls with equal frame, target, features, fraction and seed return
identical train-test quadruples. -/
theorem C8_deterministic (df1 df2 : DataFrame) (a1 a2 : String)
    (e1 e2 : List String) (t1 t2 : ℚ) (s1 s2 : ℕ)
    (hdf : df1 = df2) (ha : a1 = a2) (he : e1 = e2) (ht : t1 = t2)
    (hs : s1 = s2) :
    preparar_dados_para_modelo df1 a1 e1 t1 s1 =
      preparar_dados_para_modelo df2 a2 e2 t2 s2 := by
  subst hdf
  subst ha
  subst he
  subst ht
  subst hs
  rfl

/-- C8 witness: determinism applied at a concrete call. -/
theorem C8_deterministic_witness :
    preparar_dados_para_modelo ⟨[("x", [10, 20, 30, 40])]⟩ "x" ["x"] (1/2) 42 =
      preparar_dados_para_modelo ⟨[("x", [10, 20, 30, 40])]⟩ "x" ["x"] (1/2) 42 :=
  C8_deterministic _ _ _ _ _ _ _ _ _ _ rfl rfl rfl rfl rfl

/-- C9: a successful preparar_dados_para_modelo call partitions the row
indices cleanly: train and test index sets are disjoint, without
duplicates, their concatenation is a permutation of all row indices
(no row lost or duplicated), their sizes add up to the row count, and
both the feature rows and the target values are selected by the same
index lists, so each feature row stays paired with its target. -/
theorem C9_split_partition {database : DataFrame} {alvo : String}
    {variaveis_exp : List String} {test_size : ℚ} {seed : ℕ}
    {Xtr Xte : List (List ℚ)} {ytr yte : List ℚ} {dfn : DataFrame}
    (hok : preparar_dados_para_modelo database alvo variaveis_exp test_size seed =
      Except.ok (Xtr, Xte, ytr, yte, dfn)) :
    ∃ tr te : List ℕ,
      splitIndices seed dfn.nrows test_size = some (tr, te) ∧
      tr.Disjoint te ∧
      (tr ++ te).Perm (List.range dfn.nrows) ∧
      tr.length + te.length = dfn.nrows ∧
      tr.Nodup ∧ te.Nodup ∧
      Xtr = tr.map (rowOf dfn variaveis_exp) ∧
      Xte = te.map (rowOf dfn variaveis_exp) ∧
      ytr = tr.map (targOf dfn alvo) ∧
      yte = te.map (targOf dfn alvo) ∧
      Xtr.zip ytr = tr.map (fun i => (rowOf dfn variaveis_exp i, targOf dfn alvo i)) ∧
      Xte.zip yte = te.map (fun i => (rowOf dfn variaveis_exp i, targOf dfn alvo i)) := by
  unfold preparar_dados_para_modelo at hok
  split at hok
  case isFalse => exact absurd hok (by simp)
  case isTrue hall =>
    dsimp only at hok
    split at hok
    case h_1 => exact absurd hok (by simp)
    case h_2 tr te heq =>
      simp only [Except.ok.injEq, Prod.mk.injEq] at hok
      obtain ⟨h1, h2, h3, h4, h5⟩ := hok
      subst h5
      subst h1
      subst h2
      subst h3
      subst h4
      obtain ⟨hd, hp, hl, hn1, hn2⟩ := splitIndices_spec heq
      exact ⟨tr, te, heq, hd, hp, hl, hn1, hn2, rfl, rfl, rfl, rfl,
        List.zip_map' _ _ tr, List.zip_map' _ _ te⟩

/-- C9 witness: the partition theorem applied to a concrete 4-row
table split with fraction 1/2 and seed 42. -/
theorem C9_split_partition_witness :
    ∃ tr te : List ℕ,
      splitIndices 42 ((⟨[("x", [0, 1/3, 2/3, 1])]⟩ : DataFrame).nrows) (1/2) =
        some (tr, te) ∧
      tr.Disjoint te ∧
      (tr ++ te).Perm (List.range (⟨[("x", [0, 1/3, 2/3, 1])]⟩ : DataFrame).nrows) ∧
      tr.length + te.length = (⟨[("x", [0, 1/3, 2/3, 1])]⟩ : DataFrame).nrows ∧
      tr.Nodup ∧ te.Nodup ∧
      [[(1 : ℚ)/3], [0]] = tr.map (rowOf ⟨[("x", [0, 1/3, 2/3, 1])]⟩ ["x"]) ∧
      [[(1 : ℚ)], [2/3]] = te.map (rowOf ⟨[("x", [0, 1/3, 2/3, 1])]⟩ ["x"]) ∧
      [(1 : ℚ)/3, 0] = tr.map (targOf ⟨[("x", [0, 1/3, 2/3, 1])]⟩ "x") ∧
      [(1 : ℚ), 2/3] = te.map (targOf ⟨[("x", [0, 1/3, 2/3, 1])]⟩ "x") ∧
      ([[(1 : ℚ)/3], [0]].zip [(1 : ℚ)/3, 0]) =
        tr.map (fun i => (rowOf ⟨[("x", [0, 1/3, 2/3, 1])]⟩ ["x"] i,
          targOf ⟨[("x", [0, 1/3, 2/3, 1])]⟩ "x" i)) ∧
      ([[(1 : ℚ)], [2/3]].zip [(1 : ℚ), 2/3]) =
        te.map (fun i => (rowOf ⟨[("x", [0, 1/3, 2/3, 1])]⟩ ["x"] i,
          targOf ⟨[("x", [0, 1/3, 2/3, 1])]⟩ "x" i)) :=
  @C9_split_partition ⟨[("x", [10, 20, 30, 40])]⟩ "x" ["x"] (1/2) 42
    [[(1 : ℚ)/3], [0]] [[(1 : ℚ)], [2/3]] [(1 : ℚ)/3, 0] [(1 : ℚ), 2/3]
    ⟨[("x", [0, 1/3, 2/3, 1])]⟩ (by
    have hnt : nTestFrom (1/2) 4 = 2 := by
      norm_num [nTestFrom]
      try decide
    norm_num [preparar_dados_para_modelo, DataFrame.hasCol, hasColB,
      normalizarColunas, minMaxScaler, minOf, maxOf, min_def, max_def,
      DataFrame.nrows, DataFrame.col, lookupCol, rowOf, targOf,
      splitIndices, hnt,
      show shuffleList 42 (List.range 4) = [3, 2, 1, 0] from by decide])

/-- C10 counterexample: with a CONSTANT reference column c the call
still succeeds, and the weight entry for the reference is NaN rather
than being derived from a self-correlation of 1 (the self-correlation
of the constant normalized column [0, 0, 0] is itself NaN). -/
theorem C10_counterexample :
    calcular_pesos_correlacao ⟨[("c", [2, 2, 2]), ("y", [4, 5, 6])]⟩
        ["c", "y"] "c" =
      Except.ok (⟨[("c", [0, 0, 0]), ("y", [0, 1/2, 1])]⟩,
        [("c", none), ("y", none)]) ∧
    pearsonAbs ([0, 0, 0] : List ℚ) ([0, 0, 0] : List ℚ) = none := by
  constructor
  · have hnorm : normalizarColunas ⟨[("c", [2, 2, 2]), ("y", [4, 5, 6])]⟩
        ["c", "y"] = ⟨[("c", [0, 0, 0]), ("y", [0, 1/2, 1])]⟩ := by
      norm_num [normalizarColunas, minMaxScaler, minOf, maxOf, min_def, max_def]
    have hpc : pearsonAbs ([0, 0, 0] : List ℚ) ([0, 0, 0] : List ℚ) =
        none := pearsonAbs_none_left (by norm_num [sxy, meanQ])
    have hpy : pearsonAbs ([0, (2 : ℚ)⁻¹, 1]) ([0, 0, 0] : List ℚ) =
        none := pearsonAbs_none_right (by norm_num [sxy, meanQ])
    have hcorrs : corrsFor ⟨[("c", [0, 0, 0]), ("y", [0, 1/2, 1])]⟩
        ["c", "y"] "c" = [("c", none), ("y", none)] := by
      simp [corrsFor, DataFrame.col, lookupCol, hpc, hpy]
    unfold calcular_pesos_correlacao
    rw [if_pos (by decide), hnorm, if_pos (by decide), hcorrs]
    norm_num [pesosFrom, somaCorrs]
  · exact pearsonAbs_none_left (by norm_num [sxy, meanQ])

/-- C10 amended: when every listed column exists but the reference is
not among the listed variables, calcular_pesos_correlacao fails with
the missing-key error of the corr()[ref] lookup; every successful call
has the reference among the variables and an entry for it in the
returned weight series; and when the normalized reference column is
not constant, that entry is derived from the self-correlation 1 -- it
equals 1 divided by the (then nonzero) sum of absolute correlations,
so it participates in the sum normalization -- and it participates in
the weighted composite index: the raw index of every row is the value
of the reference column in that row times this weight, plus the
contributions of the remaining variables. -/
theorem C10_reference_weight :
    (∀ (df : DataFrame) (variaveis : List String) (ref : String),
      variaveis.all df.hasCol = true → ref ∉ variaveis →
        ∃ msg, calcular_pesos_correlacao df variaveis ref = Except.error msg) ∧
    (∀ (df dfn : DataFrame) (variaveis : List String) (ref : String)
        (pesos : List (String × Option ℚ)),
      calcular_pesos_correlacao df variaveis ref = Except.ok (dfn, pesos) →
        ref ∈ variaveis ∧ ∃ w, (ref, w) ∈ pesos) ∧
    (∀ (df dfn : DataFrame) (variaveis : List String) (ref : String)
        (pesos : List (String × Option ℚ)),
      calcular_pesos_correlacao df variaveis ref = Except.ok (dfn, pesos) →
        sxy (dfn.col ref) (dfn.col ref) ≠ 0 →
          pearsonAbs (dfn.col ref) (dfn.col ref) = some 1 ∧
          somaCorrs (corrsFor dfn variaveis ref) ≠ 0 ∧
          lookupPeso pesos ref =
            some (1 / somaCorrs (corrsFor dfn variaveis ref)) ∧
          (∀ i : ℕ, indiceBruto dfn variaveis pesos i =
            ((dfn.col ref).getD i 0) *
              (1 / somaCorrs (corrsFor dfn variaveis ref)) +
            (((variaveis.erase ref).map fun v =>
              match lookupPeso pesos v with
              | some p => ((dfn.col v).getD i 0) * p
              | none => 0).sum))) := by
  refine ⟨?_, ?_, ?_⟩
  · intro df variaveis ref hall href
    unfold calcular_pesos_correlacao
    rw [if_pos hall, if_neg href]
    exact ⟨_, rfl⟩
  · intro df dfn variaveis ref pesos hok
    obtain ⟨hdfn, hpesos, href, hall⟩ := calcular_pesos_ok hok
    subst hdfn
    subst hpesos
    refine ⟨href, ?_⟩
    rw [pesosFrom_corrsFor_eq]
    exact ⟨_, List.mem_map_of_mem _ href⟩
  · intro df dfn variaveis ref pesos hok hsxx
    obtain ⟨hdfn, hpesos, href, hall⟩ := calcular_pesos_ok hok
    subst hdfn
    subst hpesos
    have hself := pearsonAbs_self hsxx
    have hmem : (ref, pearsonAbs
        ((normalizarColunas df variaveis).col ref)
        ((normalizarColunas df variaveis).col ref)) ∈
        corrsFor (normalizarColunas df variaveis) variaveis ref :=
      List.mem_map_of_mem _ href
    rw [hself] at hmem
    have hs : 0 < somaCorrs (corrsFor (normalizarColunas df variaveis)
        variaveis ref) := somaCorrs_pos hmem (by norm_num)
    have hw : lookupPeso (pesosFrom (corrsFor (normalizarColunas df variaveis)
        variaveis ref)) ref =
        some (1 / somaCorrs (corrsFor (normalizarColunas df variaveis)
          variaveis ref)) := by
      rw [pesosFrom_corrsFor_eq, lookupPeso_map _ _ _ href, hself]
      simp [hs.ne']
    refine ⟨hself, hs.ne', hw, ?_⟩
    intro i
    unfold indiceBruto
    rw [List.Perm.sum_eq (List.Perm.map _ (List.perm_cons_erase href))]
    simp [hw]

/-- C10 witness: the reference-weight theorem applied to concrete
inputs: a reference outside the listed variables fails; on the table
with feature column [1, 2, 3] used as its own reference the weight of
the reference is 1 divided by the correlation sum, and the raw index
of row 1 is the reference value of that row times this weight plus the
contributions of the remaining (here no) variables. -/
theorem C10_reference_weight_witness :
    (∃ msg, calcular_pesos_correlacao ⟨[("x", [1, 2, 3])]⟩ ["x"] "y" =
      Except.error msg) ∧
    pearsonAbs ((⟨[("x", [0, 1/2, 1])]⟩ : DataFrame).col "x")
      ((⟨[("x", [0, 1/2, 1])]⟩ : DataFrame).col "x") = some 1 ∧
    somaCorrs (corrsFor ⟨[("x", [0, 1/2, 1])]⟩ ["x"] "x") ≠ 0 ∧
    lookupPeso [("x", some 1)] "x" =
      some (1 / somaCorrs (corrsFor ⟨[("x", [0, 1/2, 1])]⟩ ["x"] "x")) ∧
    indiceBruto ⟨[("x", [0, 1/2, 1])]⟩ ["x"] [("x", some 1)] 1 =
      (((⟨[("x", [0, 1/2, 1])]⟩ : DataFrame).col "x").getD 1 0) *
        (1 / somaCorrs (corrsFor ⟨[("x", [0, 1/2, 1])]⟩ ["x"] "x")) +
      (((["x"].erase "x").map fun v =>
        match lookupPeso [("x", some 1)] v with
        | some p => (((⟨[("x", [0, 1/2, 1])]⟩ : DataFrame).col v).getD 1 0) * p
        | none => 0).sum) := by
  have h2 := C10_reference_weight.2.2 ⟨[("x", [1, 2, 3])]⟩
    ⟨[("x", [0, 1/2, 1])]⟩ ["x"] "x" [("x", some 1)]
    (by norm_num [calcular_pesos_correlacao, DataFrame.hasCol, hasColB,
      normalizarColunas, minMaxScaler, minOf, maxOf, min_def, max_def,
      corrsFor, pesosFrom, somaCorrs, DataFrame.col, lookupCol,
      pearsonAbs, sxy, meanQ, sqrtQ, show isqrt 4 = 2 from by decide,
      Int.toNat_ofNat])
    (by norm_num [DataFrame.col, lookupCol, sxy, meanQ])
  exact ⟨C10_reference_weight.1 ⟨[("x", [1, 2, 3])]⟩ ["x"] "y"
    (by decide) (by decide), h2.1, h2.2.1, h2.2.2.1, h2.2.2.2 1⟩
